import Mathlib

/-!
Verification of the RAG ingestion-and-retrieval pipeline of
`rag-azure-openai-cosmosdb-notebook.ipynb`.

The notebook's two core pieces are embedded shallowly:

* `upsert_data_to_memory_store` (the ingestion engine): parses a JSON batch
  file, and for each record performs a point lookup by id in the vector
  store (`store.get` inside a `try`/`except` that maps every exception to
  `already_created = False`), and for records classified missing calls
  `memory.save_information` (embedding-gateway call + store write of a
  StoredItem with `id`, `text=content`, `description=title`).

* the RAG chat-history loop: appends the user message to the chat history,
  runs `memory.search`, renders the grounded prompt with the history, calls
  the chat gateway, and appends the assistant message.

External collaborators (embedding gateway, chat gateway, store-side failure
behaviour) are modelled as oracle functions inside environment structures;
the store itself is an association list keyed by id with replace-or-append
upsert, matching the key-value contract of the vector store.
-/

set_option autoImplicit false

namespace Rag

/-- Ingestion input record, one element of the JSON batch file:
`{id, title, content}`. -/
structure Record where
  id : String
  title : String
  content : String
deriving Repr, DecidableEq

/-- Vector store entity written by `memory.save_information`:
`{id, text, embedding, description, additional_metadata}`.  The notebook
never passes `additional_metadata`, so ingestion stores `none` there. -/
structure StoredItem where
  id : String
  text : String
  embedding : List Int
  description : String
  additional_metadata : Option String
deriving Repr, DecidableEq

/-- The vector store collection: items keyed by `id`. -/
abbrev Store := List StoredItem

/-- Point lookup by id (`store.get`): first item whose `id` matches. -/
def lookupStore : Store → String → Option StoredItem
  | [], _ => none
  | it :: rest, i => if it.id = i then some it else lookupStore rest i

/-- Store write (`store.upsert` inside `memory.save_information`):
replace the item with the same id if present, otherwise append. -/
def storeUpsert : Store → StoredItem → Store
  | [], w => [w]
  | it :: rest, w => if it.id = w.id then w :: rest else it :: storeUpsert rest w

/-- Per-record outcome tracked by the ingestion engine: a record is either
newly `created` or `skipped` because its id was already present. -/
inductive Outcome where
  | created
  | skipped
deriving Repr, DecidableEq

/-- Errors the ingestion run can stop with.  There is deliberately no
lookup-error constructor: the source catches every `store.get` exception. -/
inductive IngestErr where
  | parseErr
  | embeddingErr
  | writeErr
deriving Repr, DecidableEq

/-- External collaborators of one ingestion run.  `lookupFails k` says the
store-side `get` call for the `k`-th record raises (independently of the id
being present); `embed` is the embedding gateway; `writeFails k` says the
store write for the `k`-th record raises. -/
structure IngestEnv where
  lookupFails : Nat → Bool
  embed : String → Except Unit (List Int)
  writeFails : Nat → Bool

/-- Result of an ingestion run: final store, per-record report in source
order, the contents sent to the embedding gateway, the items written, the
ids looked up, and the error that stopped the run (`none` = completed). -/
structure IngestResult where
  store : Store
  report : List Outcome
  embeds : List String
  writes : List StoredItem
  lookups : List String
  err : Option IngestErr
deriving Repr, DecidableEq

/-- The record loop of `upsert_data_to_memory_store`.  For the `k`-th record:
`already_created = bool(store.get ...)` guarded by `try/except` (any raise,
store-side or not-found, yields `False`); if not already created,
`memory.save_information` embeds `content` and writes the StoredItem; an
embedding or write failure propagates and stops the batch. -/
def upsertLoop (env : IngestEnv) : Nat → Store → List Record → IngestResult
  | _, st, [] => ⟨st, [], [], [], [], none⟩
  | k, st, item :: rest =>
    let already_created := !env.lookupFails k && (lookupStore st item.id).isSome
    if already_created then
      let r := upsertLoop env (k + 1) st rest
      ⟨r.store, .skipped :: r.report, r.embeds, r.writes, item.id :: r.lookups, r.err⟩
    else
      match env.embed item.content with
      | .error _ => ⟨st, [], [item.content], [], [item.id], some .embeddingErr⟩
      | .ok v =>
        if env.writeFails k then
          ⟨st, [], [item.content], [], [item.id], some .writeErr⟩
        else
          let w : StoredItem := ⟨item.id, item.content, v, item.title, none⟩
          let r := upsertLoop env (k + 1) (storeUpsert st w) rest
          ⟨r.store, .created :: r.report, item.content :: r.embeds,
            w :: r.writes, item.id :: r.lookups, r.err⟩

/-- The entry point `upsert_data_to_memory_store`: `json.load` parses the
whole file before the loop starts; a file that does not parse as a sequence
of records stops the run before any lookup, embedding call or write. -/
def upsert_data_to_memory_store (env : IngestEnv)
    (fileData : Except Unit (List Record)) (st : Store) : IngestResult :=
  match fileData with
  | .error _ => ⟨st, [], [], [], [], some .parseErr⟩
  | .ok records => upsertLoop env 0 st records

/-- One search result of `memory.search`: similarity text, relevance score
and the stored additional metadata.  Relevance is abstracted to an integer
score supplied by the score oracle. -/
structure SearchResult where
  text : String
  relevance : Int
  additional_metadata : Option String
deriving Repr, DecidableEq

/-- Result view of one stored item against a query, under a score oracle. -/
def toSearchResult (score : String → StoredItem → Int) (q : String)
    (it : StoredItem) : SearchResult :=
  ⟨it.text, score q it, it.additional_metadata⟩

/-- Insert one result into a list kept ordered by descending relevance. -/
def insertDesc (r : SearchResult) : List SearchResult → List SearchResult
  | [] => [r]
  | x :: xs => if x.relevance ≤ r.relevance then r :: x :: xs else x :: insertDesc r xs

/-- Sort results by descending relevance (insertion sort). -/
def sortDesc : List SearchResult → List SearchResult
  | [] => []
  | r :: rs => insertDesc r (sortDesc rs)

/-- The search operation `memory.search(collection, query)`: score every stored item against the
query embedding, keep those at or above the minimum relevance, order by
descending relevance and return at most `limit` results (the notebook uses
the defaults `limit = 1`, `min_relevance_score = 0`). -/
def searchTop (score : String → StoredItem → Int) (minRel : Int)
    (st : Store) (q : String) (limit : Nat) : List SearchResult :=
  (sortDesc ((st.map (toSearchResult score q)).filter
    (fun r => minRel ≤ r.relevance))).take limit

/-- Role of a chat-history entry. -/
inductive Role where
  | system
  | user
  | assistant
deriving Repr, DecidableEq

/-- One chat-history entry. -/
structure ChatMessage where
  role : Role
  text : String
deriving Repr, DecidableEq

/-- Rendering of an optional metadata value into prompt text (the notebook
passes `search_result[0].additional_metadata` straight into the template). -/
def optText : Option String → String
  | none => "None"
  | some s => s

/-- Serialization of the chat history into the flat transcript substituted
for the template's history variable. -/
def histText : List ChatMessage → String
  | [] => ""
  | m :: ms =>
    (match m.role with
      | .system => "system: "
      | .user => "user: "
      | .assistant => "assistant: ") ++ m.text ++ "\n" ++ histText ms

/-- The grounded history prompt of the notebook with `db_record`, `history`
and `query_term` substituted. -/
def renderPrompt (db_record : String) (history : String) (query_term : String) : String :=
  "\n    You are a chatbot that can have a conversations about any topic related to the provided context.\n    Give explicit answers from the provided context or say \x27I don\x27t know\x27 if it does not have an answer.\n    provided context: "
    ++ db_record ++ "\n\n    " ++ history ++ "\n    \n    User: "
    ++ query_term ++ "\n    Chatbot:"

/-- Errors one turn of the chat loop can stop with.  `noGroundingFound` is
the failure raised by `search_result[0]` on an empty search result, before
any chat-gateway call; `chatServiceError` is a chat-gateway failure. -/
inductive RagErr where
  | noGroundingFound
  | chatServiceError
deriving Repr, DecidableEq

/-- External collaborators of the responder: the score oracle behind
`memory.search` and the chat gateway behind `kernel.invoke`. -/
structure ChatEnv where
  score : String → StoredItem → Int
  complete : String → Except Unit String

/-- Result of one turn of the chat-history loop: the history as left behind
(the loop mutates it in place, so it survives a failed turn), the response
if the turn completed, the prompts sent to the chat gateway, and the error
that stopped the turn. -/
structure ChatStepResult where
  history : List ChatMessage
  response : Option String
  chatCalls : List String
  err : Option RagErr
deriving Repr, DecidableEq

/-- One iteration of the notebook's chat-history loop:
`chat_history.add_user_message(query_term)` first, then
`memory.search`, then `kernel.invoke(chat_history_function, ...)` on
`search_result[0]`, then `chat_history.add_assistant_message(...)`. -/
def chatStep (env : ChatEnv) (st : Store) (hist : List ChatMessage)
    (q : String) : ChatStepResult :=
  let hist1 := hist ++ [⟨.user, q⟩]
  match searchTop env.score 0 st q 1 with
  | [] => ⟨hist1, none, [], some .noGroundingFound⟩
  | r :: _ =>
    let prompt := renderPrompt (optText r.additional_metadata) (histText hist1) q
    match env.complete prompt with
    | .error _ => ⟨hist1, none, [prompt], some .chatServiceError⟩
    | .ok text => ⟨hist1 ++ [⟨.assistant, text⟩], some text, [prompt], none⟩

/-- Final state of the chat-history loop over a sequence of queries. -/
structure ChatLoopResult where
  history : List ChatMessage
  err : Option RagErr
deriving Repr, DecidableEq

/-- The chat-history loop run over a list of queries, stopping at the first
failing turn (an uncaught exception ends the loop). -/
def chatLoop (env : ChatEnv) (st : Store) :
    List ChatMessage → List String → ChatLoopResult
  | hist, [] => ⟨hist, none⟩
  | hist, q :: qs =>
    let r := chatStep env st hist q
    match r.err with
    | some e => ⟨r.history, some e⟩
    | none => chatLoop env st r.history qs

/-- A transcript of alternating user/assistant pairs. -/
def isUATranscript : List ChatMessage → Bool
  | [] => true
  | u :: a :: rest => u.role = .user && a.role = .assistant && isUATranscript rest
  | _ :: [] => false

/-! ## Concrete fixtures used for witness checks -/

/-- Reliable collaborators: no lookup failures, embedding of a text is its
length as a one-entry vector, no write failures. -/
def envOk : IngestEnv := ⟨fun _ => false, fun s => .ok [(s.length : Int)], fun _ => false⟩

/-- Collaborators whose store-side lookup always raises. -/
def envLookupErr : IngestEnv := ⟨fun _ => true, fun s => .ok [(s.length : Int)], fun _ => false⟩

/-- Collaborators whose embedding gateway always fails. -/
def envEmbedFail : IngestEnv := ⟨fun _ => false, fun _ => .error (), fun _ => false⟩

/-- Collaborators whose embedding gateway fails exactly on the content of
the second sample record. -/
def envFailB : IngestEnv :=
  ⟨fun _ => false,
   fun s => if s = "content b" then .error () else .ok [(s.length : Int)],
   fun _ => false⟩

/-- Sample batch records. -/
def recA : Record := ⟨"a", "Title A", "content a"⟩

def recB : Record := ⟨"b", "Title B", "content b"⟩

def recC : Record := ⟨"c", "Title C", "content c"⟩

/-- A stored item for `recB` as `envOk` ingestion would produce it. -/
def itemB : StoredItem := ⟨"b", "content b", [9], "Title B", none⟩

/-- Responder collaborators: every item scores 1, chat gateway succeeds. -/
def chatEnvOk : ChatEnv := ⟨fun _ _ => 1, fun _ => .ok "resp"⟩

/-- Responder collaborators whose chat gateway always fails. -/
def chatEnvFail : ChatEnv := ⟨fun _ _ => 1, fun _ => .error ()⟩

/-! ## Store lemmas -/

theorem lookupStore_storeUpsert_self (st : Store) (w : StoredItem) :
    lookupStore (storeUpsert st w) w.id = some w := by
  induction st with
  | nil => simp [storeUpsert, lookupStore]
  | cons it rest ih =>
    by_cases h : it.id = w.id
    · simp [storeUpsert, h, lookupStore]
    · simp [storeUpsert, h, lookupStore, ih]

theorem lookupStore_storeUpsert_ne (st : Store) (w : StoredItem) (i : String)
    (h : i ≠ w.id) : lookupStore (storeUpsert st w) i = lookupStore st i := by
  induction st with
  | nil => simp [storeUpsert, lookupStore, Ne.symm h]
  | cons it rest ih =>
    simp only [storeUpsert]
    by_cases hit : it.id = w.id
    · rw [if_pos hit]
      simp only [lookupStore]
      rw [if_neg (show ¬w.id = i from Ne.symm h),
        if_neg (show ¬it.id = i by rw [hit]; exact Ne.symm h)]
    · rw [if_neg hit]
      simp only [lookupStore]
      by_cases hii : it.id = i
      · rw [if_pos hii, if_pos hii]
      · rw [if_neg hii, if_neg hii, ih]

theorem isSome_lookupStore_storeUpsert (st : Store) (w : StoredItem) (i : String)
    (h : (lookupStore st i).isSome) :
    (lookupStore (storeUpsert st w) i).isSome := by
  by_cases hi : i = w.id
  · subst hi; rw [lookupStore_storeUpsert_self]; rfl
  · rw [lookupStore_storeUpsert_ne st w i hi]; exact h

/-! ## Step equations of the ingestion loop -/

theorem upsertLoop_nil (env : IngestEnv) (k : Nat) (st : Store) :
    upsertLoop env k st [] = ⟨st, [], [], [], [], none⟩ := rfl

theorem upsertLoop_cons_found (env : IngestEnv) (k : Nat) (st : Store)
    (item : Record) (rest : List Record)
    (hl : env.lookupFails k = false) (hf : (lookupStore st item.id).isSome) :
    upsertLoop env k st (item :: rest) =
      ⟨(upsertLoop env (k + 1) st rest).store,
       .skipped :: (upsertLoop env (k + 1) st rest).report,
       (upsertLoop env (k + 1) st rest).embeds,
       (upsertLoop env (k + 1) st rest).writes,
       item.id :: (upsertLoop env (k + 1) st rest).lookups,
       (upsertLoop env (k + 1) st rest).err⟩ := by
  simp [upsertLoop, hl, hf]

theorem upsertLoop_cons_missing_ok (env : IngestEnv) (k : Nat) (st : Store)
    (item : Record) (rest : List Record) (v : List Int)
    (hm : (!env.lookupFails k && (lookupStore st item.id).isSome) = false)
    (he : env.embed item.content = .ok v) (hw : env.writeFails k = false) :
    upsertLoop env k st (item :: rest) =
      ⟨(upsertLoop env (k + 1) (storeUpsert st ⟨item.id, item.content, v, item.title, none⟩) rest).store,
       .created :: (upsertLoop env (k + 1) (storeUpsert st ⟨item.id, item.content, v, item.title, none⟩) rest).report,
       item.content :: (upsertLoop env (k + 1) (storeUpsert st ⟨item.id, item.content, v, item.title, none⟩) rest).embeds,
       ⟨item.id, item.content, v, item.title, none⟩ :: (upsertLoop env (k + 1) (storeUpsert st ⟨item.id, item.content, v, item.title, none⟩) rest).writes,
       item.id :: (upsertLoop env (k + 1) (storeUpsert st ⟨item.id, item.content, v, item.title, none⟩) rest).lookups,
       (upsertLoop env (k + 1) (storeUpsert st ⟨item.id, item.content, v, item.title, none⟩) rest).err⟩ := by
  simp [upsertLoop, hm, he, hw]

theorem upsertLoop_cons_embed_err (env : IngestEnv) (k : Nat) (st : Store)
    (item : Record) (rest : List Record) (e : Unit)
    (hm : (!env.lookupFails k && (lookupStore st item.id).isSome) = false)
    (he : env.embed item.content = .error e) :
    upsertLoop env k st (item :: rest) =
      ⟨st, [], [item.content], [], [item.id], some .embeddingErr⟩ := by
  simp [upsertLoop, hm, he]

theorem upsertLoop_cons_write_err (env : IngestEnv) (k : Nat) (st : Store)
    (item : Record) (rest : List Record) (v : List Int)
    (hm : (!env.lookupFails k && (lookupStore st item.id).isSome) = false)
    (he : env.embed item.content = .ok v) (hw : env.writeFails k = true) :
    upsertLoop env k st (item :: rest) =
      ⟨st, [], [item.content], [], [item.id], some .writeErr⟩ := by
  simp [upsertLoop, hm, he, hw]

/-! ## Batch-level lemmas of the ingestion loop -/

theorem upsertLoop_isSome_mono (env : IngestEnv) (rs : List Record) :
    ∀ (k : Nat) (st : Store) (i : String), (lookupStore st i).isSome →
      (lookupStore (upsertLoop env k st rs).store i).isSome := by
  induction rs with
  | nil => intro k st i h; exact h
  | cons item rest ih =>
    intro k st i h
    cases hg : (!env.lookupFails k && (lookupStore st item.id).isSome) with
    | true =>
      simp only [Bool.and_eq_true, Bool.not_eq_true'] at hg
      obtain ⟨hl, hf⟩ := hg
      rw [upsertLoop_cons_found env k st item rest hl hf]
      exact ih (k + 1) st i h
    | false =>
      cases he : env.embed item.content with
      | error e => rw [upsertLoop_cons_embed_err env k st item rest e hg he]; exact h
      | ok v =>
        cases hw : env.writeFails k with
        | true => rw [upsertLoop_cons_write_err env k st item rest v hg he hw]; exact h
        | false =>
          rw [upsertLoop_cons_missing_ok env k st item rest v hg he hw]
          exact ih (k + 1) _ i
            (isSome_lookupStore_storeUpsert st ⟨item.id, item.content, v, item.title, none⟩ i h)

theorem upsertLoop_err_none_all_present (env : IngestEnv) (rs : List Record) :
    ∀ (k : Nat) (st : Store), (upsertLoop env k st rs).err = none →
      ∀ r ∈ rs, (lookupStore (upsertLoop env k st rs).store r.id).isSome := by
  induction rs with
  | nil => intro k st _ r hr; cases hr
  | cons item rest ih =>
    intro k st herr r hr
    cases hg : (!env.lookupFails k && (lookupStore st item.id).isSome) with
    | true =>
      have hg' := hg
      simp only [Bool.and_eq_true, Bool.not_eq_true'] at hg'
      obtain ⟨hl, hf⟩ := hg'
      rw [upsertLoop_cons_found env k st item rest hl hf] at herr ⊢
      rcases List.mem_cons.mp hr with hEq | hr'
      · subst hEq; exact upsertLoop_isSome_mono env rest (k + 1) st r.id hf
      · exact ih (k + 1) st herr r hr'
    | false =>
      cases he : env.embed item.content with
      | error e =>
        rw [upsertLoop_cons_embed_err env k st item rest e hg he] at herr
        cases herr
      | ok v =>
        cases hw : env.writeFails k with
        | true =>
          rw [upsertLoop_cons_write_err env k st item rest v hg he hw] at herr
          cases herr
        | false =>
          rw [upsertLoop_cons_missing_ok env k st item rest v hg he hw] at herr ⊢
          rcases List.mem_cons.mp hr with hEq | hr'
          · subst hEq
            exact upsertLoop_isSome_mono env rest (k + 1) _ r.id
              (by rw [lookupStore_storeUpsert_self st
                ⟨r.id, r.content, v, r.title, none⟩]; rfl)
          · exact ih (k + 1) _ herr r hr'

theorem upsertLoop_all_found (env : IngestEnv) (rs : List Record) :
    ∀ (k : Nat) (st : Store), (∀ j, env.lookupFails j = false) →
      (∀ r ∈ rs, (lookupStore st r.id).isSome) →
      upsertLoop env k st rs =
        ⟨st, List.replicate rs.length .skipped, [], [], rs.map Record.id, none⟩ := by
  induction rs with
  | nil => intro k st _ _; rfl
  | cons item rest ih =>
    intro k st hl hall
    rw [upsertLoop_cons_found env k st item rest (hl k) (hall item (by simp))]
    rw [ih (k + 1) st hl (fun r hr => hall r (by simp [hr]))]
    simp [List.replicate_succ]

theorem upsertLoop_preserves (env : IngestEnv) (rs : List Record) :
    ∀ (k : Nat) (st : Store) (i : String), (∀ j, env.lookupFails j = false) →
      (lookupStore st i).isSome →
      lookupStore (upsertLoop env k st rs).store i = lookupStore st i := by
  induction rs with
  | nil => intro k st i _ _; rfl
  | cons item rest ih =>
    intro k st i hl hi
    cases hf : (lookupStore st item.id).isSome with
    | true =>
      rw [upsertLoop_cons_found env k st item rest (hl k) hf]
      exact ih (k + 1) st i hl hi
    | false =>
      have hm : (!env.lookupFails k && (lookupStore st item.id).isSome) = false := by
        rw [hf, Bool.and_false]
      cases he : env.embed item.content with
      | error e => rw [upsertLoop_cons_embed_err env k st item rest e hm he]
      | ok v =>
        cases hw : env.writeFails k with
        | true => rw [upsertLoop_cons_write_err env k st item rest v hm he hw]
        | false =>
          rw [upsertLoop_cons_missing_ok env k st item rest v hm he hw]
          have hne : i ≠ item.id := by
            intro hEq
            rw [hEq, hf] at hi
            exact Bool.false_ne_true hi
          have hpres := lookupStore_storeUpsert_ne st
            ⟨item.id, item.content, v, item.title, none⟩ i hne
          rw [ih (k + 1) _ i hl (by rw [hpres]; exact hi), hpres]

theorem upsertLoop_append (env : IngestEnv) (pre rest : List Record) :
    ∀ (k : Nat) (st : Store), (upsertLoop env k st pre).err = none →
      upsertLoop env k st (pre ++ rest) =
        ⟨(upsertLoop env (k + pre.length) (upsertLoop env k st pre).store rest).store,
         (upsertLoop env k st pre).report ++
           (upsertLoop env (k + pre.length) (upsertLoop env k st pre).store rest).report,
         (upsertLoop env k st pre).embeds ++
           (upsertLoop env (k + pre.length) (upsertLoop env k st pre).store rest).embeds,
         (upsertLoop env k st pre).writes ++
           (upsertLoop env (k + pre.length) (upsertLoop env k st pre).store rest).writes,
         (upsertLoop env k st pre).lookups ++
           (upsertLoop env (k + pre.length) (upsertLoop env k st pre).store rest).lookups,
         (upsertLoop env (k + pre.length) (upsertLoop env k st pre).store rest).err⟩ := by
  induction pre with
  | nil => intro k st _; simp [upsertLoop_nil]
  | cons item p ih =>
    intro k st herr
    have hlen : k + (item :: p).length = (k + 1) + p.length := by
      simp [List.length_cons]; omega
    rw [hlen, List.cons_append]
    cases hg : (!env.lookupFails k && (lookupStore st item.id).isSome) with
    | true =>
      have hg' := hg
      simp only [Bool.and_eq_true, Bool.not_eq_true'] at hg'
      obtain ⟨hl, hf⟩ := hg'
      rw [upsertLoop_cons_found env k st item p hl hf] at herr
      rw [upsertLoop_cons_found env k st item (p ++ rest) hl hf,
        upsertLoop_cons_found env k st item p hl hf,
        ih (k + 1) st herr]
      simp [List.cons_append]
    | false =>
      cases he : env.embed item.content with
      | error e =>
        rw [upsertLoop_cons_embed_err env k st item p e hg he] at herr
        cases herr
      | ok v =>
        cases hw : env.writeFails k with
        | true =>
          rw [upsertLoop_cons_write_err env k st item p v hg he hw] at herr
          cases herr
        | false =>
          rw [upsertLoop_cons_missing_ok env k st item p v hg he hw] at herr
          rw [upsertLoop_cons_missing_ok env k st item (p ++ rest) v hg he hw,
            upsertLoop_cons_missing_ok env k st item p v hg he hw,
            ih (k + 1) _ herr]
          simp [List.cons_append]

/-! ## Lemmas about the chat-history loop -/

theorem chatStep_shape (env : ChatEnv) (st : Store) (hist : List ChatMessage)
    (q : String) :
    (∃ text, (chatStep env st hist q).history =
        hist ++ [⟨.user, q⟩, ⟨.assistant, text⟩] ∧
      (chatStep env st hist q).err = none ∧
      (chatStep env st hist q).response = some text) ∨
    ((chatStep env st hist q).history = hist ++ [⟨.user, q⟩] ∧
      (chatStep env st hist q).err ≠ none) := by
  rcases hs : searchTop env.score 0 st q 1 with _ | ⟨r, rs⟩
  · right
    constructor <;> simp [chatStep, hs]
  · rcases hc : env.complete (renderPrompt (optText r.additional_metadata)
      (histText (hist ++ [⟨.user, q⟩])) q) with e | text
    · right
      constructor <;> simp [chatStep, hs, hc]
    · left
      exact ⟨text, by simp [chatStep, hs, hc], by simp [chatStep, hs, hc],
        by simp [chatStep, hs, hc]⟩

theorem chatLoop_nil (env : ChatEnv) (st : Store) (hist : List ChatMessage) :
    chatLoop env st hist [] = ⟨hist, none⟩ := rfl

theorem chatLoop_append_only (env : ChatEnv) (st : Store) (qs : List String) :
    ∀ hist, ∃ t, (chatLoop env st hist qs).history = hist ++ t := by
  induction qs with
  | nil => intro hist; exact ⟨[], by simp [chatLoop_nil]⟩
  | cons q qs ih =>
    intro hist
    rcases chatStep_shape env st hist q with ⟨text, hh, he, _⟩ | ⟨hh, he⟩
    · have hstep : chatLoop env st hist (q :: qs) =
          chatLoop env st (chatStep env st hist q).history qs := by
        simp [chatLoop, he]
      rcases ih ((chatStep env st hist q).history) with ⟨t, ht⟩
      exact ⟨[⟨.user, q⟩, ⟨.assistant, text⟩] ++ t, by rw [hstep, ht, hh]; simp⟩
    · rcases h' : (chatStep env st hist q).err with _ | e
      · exact absurd h' he
      · have hstep : chatLoop env st hist (q :: qs) =
            ⟨(chatStep env st hist q).history, some e⟩ := by
          simp [chatLoop, h']
        exact ⟨[⟨.user, q⟩], by rw [hstep]; simpa using hh⟩

theorem chatLoop_ok_transcript (env : ChatEnv) (st : Store) (qs : List String) :
    ∀ hist, (chatLoop env st hist qs).err = none →
      ∃ t, (chatLoop env st hist qs).history = hist ++ t ∧
        isUATranscript t = true ∧ t.length = 2 * qs.length := by
  induction qs with
  | nil => intro hist _; exact ⟨[], by simp [chatLoop_nil], rfl, rfl⟩
  | cons q qs ih =>
    intro hist herr
    rcases chatStep_shape env st hist q with ⟨text, hh, he, _⟩ | ⟨hh, he⟩
    · have hstep : chatLoop env st hist (q :: qs) =
          chatLoop env st (chatStep env st hist q).history qs := by
        simp [chatLoop, he]
      rw [hstep] at herr ⊢
      rcases ih _ herr with ⟨t, ht, hua, hlen⟩
      refine ⟨[⟨.user, q⟩, ⟨.assistant, text⟩] ++ t, ?_, ?_, ?_⟩
      · rw [ht, hh]; simp
      · simpa [isUATranscript] using hua
      · simp only [List.length_append, List.length_cons, List.length_nil, hlen]
        omega
    · rcases h' : (chatStep env st hist q).err with _ | e
      · exact absurd h' he
      · have hstep : chatLoop env st hist (q :: qs) =
            ⟨(chatStep env st hist q).history, some e⟩ := by
          simp [chatLoop, h']
        rw [hstep] at herr
        cases herr

/-! ## Claims -/

/-- C1: in `upsert_data_to_memory_store`, a record whose point lookup raises
(any store-side error, independently of whether the id is present) is
classified as missing: its content is embedded, a StoredItem is written, the
loop continues with the remaining records, and the run's error status is
whatever the remaining records produce — the lookup error itself never
aborts the batch or propagates to the caller. -/
theorem claim_C1_lookup_error_fail_open (env : IngestEnv) (k : Nat) (st : Store)
    (item : Record) (rest : List Record) (v : List Int)
    (hl : env.lookupFails k = true)
    (he : env.embed item.content = .ok v) (hw : env.writeFails k = false) :
    upsertLoop env k st (item :: rest) =
      ⟨(upsertLoop env (k + 1) (storeUpsert st ⟨item.id, item.content, v, item.title, none⟩) rest).store,
       .created :: (upsertLoop env (k + 1) (storeUpsert st ⟨item.id, item.content, v, item.title, none⟩) rest).report,
       item.content :: (upsertLoop env (k + 1) (storeUpsert st ⟨item.id, item.content, v, item.title, none⟩) rest).embeds,
       ⟨item.id, item.content, v, item.title, none⟩ :: (upsertLoop env (k + 1) (storeUpsert st ⟨item.id, item.content, v, item.title, none⟩) rest).writes,
       item.id :: (upsertLoop env (k + 1) (storeUpsert st ⟨item.id, item.content, v, item.title, none⟩) rest).lookups,
       (upsertLoop env (k + 1) (storeUpsert st ⟨item.id, item.content, v, item.title, none⟩) rest).err⟩ :=
  upsertLoop_cons_missing_ok env k st item rest v (by rw [hl]; rfl) he hw

/-- Witness for C1: a store-side lookup error on a record whose id is even
already present still re-embeds and overwrites; the single-record batch
completes without error. -/
theorem claim_C1_witness :
    envLookupErr.lookupFails 0 = true ∧
    envLookupErr.embed "c" = .ok [1] ∧
    envLookupErr.writeFails 0 = false ∧
    upsertLoop envLookupErr 0 [⟨"a", "old", [0], "d", none⟩] [⟨"a", "T", "c"⟩] =
      ⟨[⟨"a", "c", [1], "T", none⟩], [.created], ["c"],
       [⟨"a", "c", [1], "T", none⟩], ["a"], none⟩ :=
  ⟨rfl, rfl, rfl, by
    rw [claim_C1_lookup_error_fail_open envLookupErr 0
      [⟨"a", "old", [0], "d", none⟩] ⟨"a", "T", "c"⟩ [] [1] rfl rfl rfl]
    rfl⟩

/-- C2: a second `upsert_batch` run on the same batch (first run completed;
the second run's lookups are served by the store without error) reports
0 created and N skipped — its report is N copies of `skipped` — makes no
embedding call and no write, and leaves the store exactly as the first run
left it. -/
theorem claim_C2_idempotent_second_run (env env2 : IngestEnv) (st : Store)
    (rs : List Record)
    (h1 : (upsertLoop env 0 st rs).err = none)
    (h2 : ∀ j, env2.lookupFails j = false) :
    upsertLoop env2 0 (upsertLoop env 0 st rs).store rs =
      ⟨(upsertLoop env 0 st rs).store, List.replicate rs.length .skipped, [], [],
       rs.map Record.id, none⟩ ∧
    (upsertLoop env2 0 (upsertLoop env 0 st rs).store rs).report.count .created = 0 ∧
    (upsertLoop env2 0 (upsertLoop env 0 st rs).store rs).report.count .skipped = rs.length := by
  have h := upsertLoop_all_found env2 rs 0 (upsertLoop env 0 st rs).store h2
    (upsertLoop_err_none_all_present env rs 0 st h1)
  refine ⟨h, ?_, ?_⟩ <;> rw [h] <;> simp [List.count_replicate]

/-- Witness for C2: ingesting two records into an empty store and running
the same batch again: the second run skips both and changes nothing. -/
theorem claim_C2_witness :
    (upsertLoop envOk 0 [] [recA, recB]).err = none ∧
    upsertLoop envOk 0 (upsertLoop envOk 0 [] [recA, recB]).store [recA, recB] =
      ⟨(upsertLoop envOk 0 [] [recA, recB]).store, List.replicate 2 .skipped, [], [],
       ["a", "b"], none⟩ :=
  ⟨rfl, by
    have h := (claim_C2_idempotent_second_run envOk envOk [] [recA, recB] rfl
      (fun _ => rfl)).1
    simpa [recA, recB] using h⟩

/-- C3: a record whose point lookup finds its id already present causes no
embedding call and no write — the step only reports `skipped` and hands the
unchanged store to the rest of the batch — and, across a whole batch with
error-free lookups, an existing StoredItem is never mutated: every id
present before the batch maps to the same item afterwards. -/
theorem claim_C3_skip_no_mutation :
    (∀ (env : IngestEnv) (k : Nat) (st : Store) (item : Record) (rest : List Record),
      env.lookupFails k = false → (lookupStore st item.id).isSome →
      upsertLoop env k st (item :: rest) =
        ⟨(upsertLoop env (k + 1) st rest).store,
         .skipped :: (upsertLoop env (k + 1) st rest).report,
         (upsertLoop env (k + 1) st rest).embeds,
         (upsertLoop env (k + 1) st rest).writes,
         item.id :: (upsertLoop env (k + 1) st rest).lookups,
         (upsertLoop env (k + 1) st rest).err⟩) ∧
    (∀ (env : IngestEnv) (rs : List Record) (k : Nat) (st : Store) (i : String),
      (∀ j, env.lookupFails j = false) → (lookupStore st i).isSome →
      lookupStore (upsertLoop env k st rs).store i = lookupStore st i) :=
  ⟨upsertLoop_cons_found, fun env rs k st i h hi => upsertLoop_preserves env rs k st i h hi⟩

/-- Witness for C3: the dedup fixture — a batch of three records where the
second id pre-exists makes exactly two embedding calls, reports the second
record skipped, and leaves the pre-existing item untouched. -/
theorem claim_C3_witness :
    envOk.lookupFails 0 = false ∧
    (lookupStore [itemB] recB.id).isSome ∧
    upsertLoop envOk 0 [itemB] [recB] = ⟨[itemB], [.skipped], [], [], ["b"], none⟩ ∧
    lookupStore (upsertLoop envOk 0 [itemB] [recA, recB, recC]).store "b" = some itemB ∧
    (upsertLoop envOk 0 [itemB] [recA, recB, recC]).embeds = ["content a", "content c"] ∧
    (upsertLoop envOk 0 [itemB] [recA, recB, recC]).report = [.created, .skipped, .created] :=
  ⟨rfl, rfl,
   by rw [claim_C3_skip_no_mutation.1 envOk 0 [itemB] recB [] rfl rfl]; rfl,
   by rw [claim_C3_skip_no_mutation.2 envOk [recA, recB, recC] 0 [itemB] "b"
        (fun _ => rfl) rfl]; rfl,
   rfl, rfl⟩

/-- C4: against an empty collection, `memory.search` returns an empty
sequence (whatever the limit and minimum relevance), and one turn of the
answer loop fails with `noGroundingFound` — the failure of `search_result[0]`
— with the chat gateway never invoked (`chatCalls = []`) and no response. -/
theorem claim_C4_no_grounding (env : ChatEnv) (hist : List ChatMessage)
    (q : String) (limit : Nat) (minRel : Int) :
    searchTop env.score minRel [] q limit = [] ∧
    chatStep env [] hist q =
      ⟨hist ++ [⟨.user, q⟩], none, [], some .noGroundingFound⟩ := by
  exact ⟨by simp [searchTop, sortDesc], rfl⟩

/-- C5: starting from a history holding exactly the leading system entry,
a run of N successful turns of the chat-history loop leaves a transcript of
exactly 2N+1 entries — the system entry followed by alternating
user/assistant pairs — and any run from any history only ever appends. -/
theorem claim_C5_history_monotonic (env : ChatEnv) (st : Store) (s : String)
    (qs : List String)
    (h : (chatLoop env st [⟨.system, s⟩] qs).err = none) :
    (∃ t, (chatLoop env st [⟨.system, s⟩] qs).history = ⟨.system, s⟩ :: t ∧
      isUATranscript t = true ∧ t.length = 2 * qs.length) ∧
    (chatLoop env st [⟨.system, s⟩] qs).history.length = 2 * qs.length + 1 ∧
    (∀ (hist : List ChatMessage) (qs' : List String),
      ∃ u, (chatLoop env st hist qs').history = hist ++ u) := by
  rcases chatLoop_ok_transcript env st qs [⟨.system, s⟩] h with ⟨t, ht, hua, hlen⟩
  refine ⟨⟨t, by simpa using ht, hua, hlen⟩, ?_,
    fun hist qs' => chatLoop_append_only env st qs' hist⟩
  rw [ht]
  simp only [List.length_append, List.length_cons, List.length_nil, hlen]
  omega

/-- Witness for C5: two successful turns on a one-item store starting from
a system-only history leave exactly five entries. -/
theorem claim_C5_witness :
    (chatLoop chatEnvOk [itemB] [⟨.system, "sys"⟩] ["q1", "q2"]).err = none ∧
    (chatLoop chatEnvOk [itemB] [⟨.system, "sys"⟩] ["q1", "q2"]).history.length = 5 :=
  ⟨rfl, by
    have h := (claim_C5_history_monotonic chatEnvOk [itemB] "sys" ["q1", "q2"] rfl).2.1
    simpa using h⟩

/-- C6: a record classified missing is embedded from its `content` and a
StoredItem `⟨id, text = content, embedding, description = title⟩` is
written and thereafter found under its id; and the upsert is one logical
operation — if the embedding call or the write fails, the store is left
exactly as it was and nothing is written. -/
theorem claim_C6_missing_record_upsert (env : IngestEnv) (k : Nat) (st : Store)
    (item : Record) (rest : List Record)
    (hm : (!env.lookupFails k && (lookupStore st item.id).isSome) = false) :
    (∀ v, env.embed item.content = .ok v → env.writeFails k = false →
      upsertLoop env k st (item :: rest) =
        ⟨(upsertLoop env (k + 1) (storeUpsert st ⟨item.id, item.content, v, item.title, none⟩) rest).store,
         .created :: (upsertLoop env (k + 1) (storeUpsert st ⟨item.id, item.content, v, item.title, none⟩) rest).report,
         item.content :: (upsertLoop env (k + 1) (storeUpsert st ⟨item.id, item.content, v, item.title, none⟩) rest).embeds,
         ⟨item.id, item.content, v, item.title, none⟩ :: (upsertLoop env (k + 1) (storeUpsert st ⟨item.id, item.content, v, item.title, none⟩) rest).writes,
         item.id :: (upsertLoop env (k + 1) (storeUpsert st ⟨item.id, item.content, v, item.title, none⟩) rest).lookups,
         (upsertLoop env (k + 1) (storeUpsert st ⟨item.id, item.content, v, item.title, none⟩) rest).err⟩ ∧
      lookupStore (storeUpsert st ⟨item.id, item.content, v, item.title, none⟩) item.id =
        some ⟨item.id, item.content, v, item.title, none⟩) ∧
    (∀ e, env.embed item.content = .error e →
      upsertLoop env k st (item :: rest) =
        ⟨st, [], [item.content], [], [item.id], some .embeddingErr⟩) ∧
    (∀ v, env.embed item.content = .ok v → env.writeFails k = true →
      upsertLoop env k st (item :: rest) =
        ⟨st, [], [item.content], [], [item.id], some .writeErr⟩) := by
  refine ⟨fun v he hw => ⟨upsertLoop_cons_missing_ok env k st item rest v hm he hw,
      lookupStore_storeUpsert_self st ⟨item.id, item.content, v, item.title, none⟩⟩,
    fun e he => upsertLoop_cons_embed_err env k st item rest e hm he,
    fun v he hw => upsertLoop_cons_write_err env k st item rest v hm he hw⟩

/-- Witness for C6: ingesting one missing record writes exactly the
StoredItem built from it; with a failing embedding gateway the store stays
empty and nothing is written. -/
theorem claim_C6_witness :
    (!envOk.lookupFails 0 && (lookupStore [] recA.id).isSome) = false ∧
    envOk.embed recA.content = .ok [9] ∧
    envOk.writeFails 0 = false ∧
    upsertLoop envOk 0 [] [recA] =
      ⟨[⟨"a", "content a", [9], "Title A", none⟩], [.created], ["content a"],
       [⟨"a", "content a", [9], "Title A", none⟩], ["a"], none⟩ ∧
    upsertLoop envEmbedFail 0 [] [recA] =
      ⟨[], [], ["content a"], [], ["a"], some .embeddingErr⟩ :=
  ⟨rfl, rfl, rfl,
   by rw [((claim_C6_missing_record_upsert envOk 0 [] recA [] rfl).1 [9] rfl rfl).1]; rfl,
   by rw [(claim_C6_missing_record_upsert envEmbedFail 0 [] recA [] rfl).2.1 () rfl]; rfl⟩

/-- C7: if, after a clean run of the records before it, the embedding call
or the store write of one record fails, the whole batch run returns that
error, the records after the failing one contribute nothing (no lookup,
embedding call, write or report entry), and the store keeps exactly the
items created before the failing record. -/
theorem claim_C7_hard_stop (env : IngestEnv) (pre : List Record) (item : Record)
    (rest : List Record) (st : Store)
    (hpre : (upsertLoop env 0 st pre).err = none)
    (hm : (!env.lookupFails pre.length &&
      (lookupStore (upsertLoop env 0 st pre).store item.id).isSome) = false) :
    (∀ e, env.embed item.content = .error e →
      upsertLoop env 0 st (pre ++ item :: rest) =
        ⟨(upsertLoop env 0 st pre).store,
         (upsertLoop env 0 st pre).report,
         (upsertLoop env 0 st pre).embeds ++ [item.content],
         (upsertLoop env 0 st pre).writes,
         (upsertLoop env 0 st pre).lookups ++ [item.id],
         some .embeddingErr⟩) ∧
    (∀ v, env.embed item.content = .ok v → env.writeFails pre.length = true →
      upsertLoop env 0 st (pre ++ item :: rest) =
        ⟨(upsertLoop env 0 st pre).store,
         (upsertLoop env 0 st pre).report,
         (upsertLoop env 0 st pre).embeds ++ [item.content],
         (upsertLoop env 0 st pre).writes,
         (upsertLoop env 0 st pre).lookups ++ [item.id],
         some .writeErr⟩) := by
  have happ := upsertLoop_append env pre (item :: rest) 0 st hpre
  rw [Nat.zero_add] at happ
  constructor
  · intro e he
    rw [happ, upsertLoop_cons_embed_err env pre.length _ item rest e hm he]
    simp
  · intro v he hw
    rw [happ, upsertLoop_cons_write_err env pre.length _ item rest v hm he hw]
    simp

/-- Witness for C7: with an embedding gateway that fails exactly on the
second record's content, a three-record batch stops at the second record:
the first record's item is in the store, the third is never touched. -/
theorem claim_C7_witness :
    (upsertLoop envFailB 0 [] [recA]).err = none ∧
    envFailB.embed recB.content = .error () ∧
    upsertLoop envFailB 0 [] [recA, recB, recC] =
      ⟨[⟨"a", "content a", [9], "Title A", none⟩], [.created],
       ["content a", "content b"],
       [⟨"a", "content a", [9], "Title A", none⟩], ["a", "b"],
       some .embeddingErr⟩ :=
  ⟨rfl, rfl,
   (claim_C7_hard_stop envFailB [recA] recB [recC] [] rfl rfl).1 () rfl⟩

/-- C9: every turn of the chat-history loop appends the
`{role: user, text: query}` entry before anything else happens: whatever the
turn's outcome, the history as left behind starts with the old history
followed by the user entry, and when the turn fails — no grounding found or
chat-gateway failure — the history is exactly the old history plus that
user entry, which is therefore retained. -/
theorem claim_C9_user_appended_first (env : ChatEnv) (st : Store)
    (hist : List ChatMessage) (q : String) :
    (∃ t, (chatStep env st hist q).history = (hist ++ [⟨.user, q⟩]) ++ t) ∧
    ((chatStep env st hist q).err ≠ none →
      (chatStep env st hist q).history = hist ++ [⟨.user, q⟩]) := by
  rcases chatStep_shape env st hist q with ⟨text, hh, he, _⟩ | ⟨hh, he⟩
  · exact ⟨⟨[⟨.assistant, text⟩], by rw [hh]; simp⟩, fun hne => absurd he hne⟩
  · exact ⟨⟨[], by rw [hh]; simp⟩, fun _ => hh⟩

/-- Witness for C9: a failing chat gateway leaves the user entry in the
history of the failed turn. -/
theorem claim_C9_witness :
    (chatStep chatEnvFail [itemB] [] "q").err = some .chatServiceError ∧
    (chatStep chatEnvFail [itemB] [] "q").history = [⟨.user, "q"⟩] :=
  ⟨rfl, by
    have h := (claim_C9_user_appended_first chatEnvFail [itemB] [] "q").2
      (by rw [show (chatStep chatEnvFail [itemB] [] "q").err =
          some .chatServiceError from rfl]
          simp)
    simpa using h⟩

/-- C10: `json.load` runs before the record loop starts, so a batch file
that does not parse as a sequence of records stops the run with a parse
error before any store lookup, embedding call or write: the store is
returned unchanged and every trace is empty. -/
theorem claim_C10_parse_failure (env : IngestEnv) (st : Store) (e : Unit) :
    upsert_data_to_memory_store env (.error e) st =
      ⟨st, [], [], [], [], some .parseErr⟩ := rfl

end Rag
